import Mathlib

/-!
Verification of the configuration canonicalization and vhost resolution
engine of the forever service, embedded from `src/lib/config.js` and
`src/lib/vhosts/dweb.js`. JavaScript values are modelled as typed Lean
values: absent (`undefined`) fields become `Option`, thrown exceptions
become `Except`, and JavaScript strings become Lean strings.
-/

/-- Errors thrown by the JavaScript code: `TypeError` for operations on
`undefined` or `null` (such as indexing the `null` result of a failed regex
`exec`, or calling `.find` on an `undefined` collection), and `ConfigError`
for validation failures raised by `check` in `config.js`. -/
inductive JsError
  | typeError
  | configError
deriving DecidableEq, Repr

deriving instance DecidableEq for Except

/-- Hex digit characters, as matched case-insensitively by the character
class of the key regex in `config.js` under the `/i` flag. -/
def isHexChar (c : Char) : Bool :=
  (48 ≤ c.toNat && c.toNat ≤ 57) || (97 ≤ c.toNat && c.toNat ≤ 102) ||
    (65 ≤ c.toNat && c.toNat ≤ 70)

/-- Case-insensitive match of the literal scheme `dweb://` at the head of
the input: under the `/i` flag each ASCII letter matches its two cases while
`:` and `/` match only themselves. Returns the characters after the
scheme. -/
def matchSchemeCI : List Char → Option (List Char)
  | d :: w :: e :: b :: c :: s1 :: s2 :: rest =>
    if (d = 'd' ∨ d = 'D') ∧ (w = 'w' ∨ w = 'W') ∧ (e = 'e' ∨ e = 'E') ∧
        (b = 'b' ∨ b = 'B') ∧ c = ':' ∧ s1 = '/' ∧ s2 = '/' then some rest
    else none
  | _ => none

/-- Matches the part of the key regex in `config.js` that follows the
optional scheme: exactly 64 hex characters followed by an optional slash,
returning the captured key characters. -/
def keyMatchCore (cs : List Char) : Option (List Char) :=
  if (cs.take 64).length = 64 ∧ (cs.take 64).all isHexChar ∧
      (cs.drop 64 = [] ∨ cs.drop 64 = ['/']) then some (cs.take 64)
  else none

/-- Character-level model of the regex in `getDPackKey` and `isDWebUrl` of
`config.js` (an optional case-insensitive `dweb://` scheme, 64 hex
characters, an optional trailing slash, anchored at both ends, flag `/i`).
The second capture group (the key, in its original case) is returned. The
scheme is consumed exactly when the input starts with it, because when the
scheme is present the colon at position 4 prevents the hex body from
matching without dropping the scheme. -/
def dPackKeyMatchList (cs : List Char) : Option (List Char) :=
  match matchSchemeCI cs with
  | some rest => keyMatchCore rest
  | none => keyMatchCore cs

/-- String-level wrapper of `dPackKeyMatchList`; `none` models a regex
mismatch, where `exec` returns `null`. -/
def dPackKeyMatch (s : String) : Option String :=
  (dPackKeyMatchList s.toList).map fun cs => String.mk cs

/-- Embeds `getDPackKey` of `config.js`, which reads capture group 2 of the
regex match. When the regex does not match, `exec` returns `null` and the
index access on `null` throws a `TypeError`. -/
def getDPackKey (url : String) : Except JsError String :=
  match dPackKeyMatch url with
  | some k => Except.ok k
  | none => Except.error JsError.typeError

/-- Embeds `isDWebUrl` of `config.js`; the `typeof` guard is subsumed by
typing, since the argument is always a string here. -/
def isDWebUrl (s : String) : Bool :=
  (dPackKeyMatch s).isSome

/-- One entry of the canonical `dpacks` list of `config.js` (a mirror site
entry). `otherDomains` is `none` when the field is absent. -/
structure DPackEntry where
  url : String
  name : String
  otherDomains : Option (List String)
deriving DecidableEq, Repr

/-- One entry of the canonical `proxies` list. The JavaScript field `from`
and `to` are Lean keywords and are embedded as `from_` and `to_`. -/
structure ProxyEntry where
  from_ : String
  to_ : String
deriving DecidableEq, Repr

/-- One entry of the canonical `redirects` list. -/
structure RedirectEntry where
  from_ : String
  to_ : String
deriving DecidableEq, Repr

/-- The canonical `ports` sub-document; each port key may be absent. -/
structure PortsCfg where
  http : Option Int := none
  https : Option Int := none
deriving DecidableEq, Repr

/-- The canonical configuration document of `config.js` (`this.canonical`),
restricted to the recognized keys the claims involve. A field is `none` when
the corresponding key is absent from the document, as after loading an empty
file. -/
structure Canonical where
  directory : Option String := none
  domain : Option String := none
  httpMirror : Option Bool := none
  ports : Option PortsCfg := none
  dpacks : Option (List DPackEntry) := none
  proxies : Option (List ProxyEntry) := none
  redirects : Option (List RedirectEntry) := none
deriving DecidableEq, Repr

/-- The `find` callback used by `addDPack` and `updateDPack` in `config.js`:
scan the list left to right, computing `getDPackKey` of each stored url
(which throws on a malformed stored url) until a key equals the searched
one. -/
def findByKey (key : String) : List DPackEntry → Except JsError (Option DPackEntry)
  | [] => Except.ok none
  | d :: rest =>
    match getDPackKey d.url with
    | Except.error e => Except.error e
    | Except.ok kd =>
      if kd = key then Except.ok (some d) else findByKey key rest

/-- Embeds `ForeverConfig.addDPack` of `config.js`: derive the new entry's
key, look for an existing entry with the same key (silent no-op when found),
otherwise append. Calling `.find` on an absent `dpacks` collection throws a
`TypeError`. The synchronous `writeToFile` step only persists the returned
document and is modelled by `validateNormalize` and `derivedVhosts` below. -/
def addDPack (c : Canonical) (cfg : DPackEntry) : Except JsError Canonical :=
  match getDPackKey cfg.url with
  | Except.error e => Except.error e
  | Except.ok key =>
    match c.dpacks with
    | none => Except.error JsError.typeError
    | some ds =>
      match findByKey key ds with
      | Except.error e => Except.error e
      | Except.ok (some _) => Except.ok c
      | Except.ok none => Except.ok { c with dpacks := some (ds ++ [cfg]) }

/-- The field updates `updateDPack` applies to the entry it found:
the stored `url` is overwritten with the payload's `url`, and `otherDomains`
is overwritten when the payload carries any array value (JavaScript treats
every array, including the empty one, as truthy) but deleted when the
payload's value is absent. The payload's `name` is never copied. -/
def applyUpdate (old : DPackEntry) (p : DPackEntry) : DPackEntry :=
  { url := p.url, name := old.name, otherDomains := p.otherDomains }

/-- The list-level effect of `updateDPack`: the first entry whose derived key
equals `key` is mutated in place by `applyUpdate` (a malformed stored url
scanned on the way throws); when no entry matches, the whole list is scanned
and left unchanged. -/
def updateList (key : String) (p : DPackEntry) :
    List DPackEntry → Except JsError (List DPackEntry)
  | [] => Except.ok []
  | d :: rest =>
    match getDPackKey d.url with
    | Except.error e => Except.error e
    | Except.ok kd =>
      if kd = key then Except.ok (applyUpdate d p :: rest)
      else
        match updateList key p rest with
        | Except.error e => Except.error e
        | Except.ok rest' => Except.ok (d :: rest')

/-- Embeds `ForeverConfig.updateDPack` of `config.js`. Calling `.find` on an
absent `dpacks` collection throws a `TypeError`. -/
def updateDPack (c : Canonical) (key : String) (p : DPackEntry) :
    Except JsError Canonical :=
  match c.dpacks with
  | none => Except.error JsError.typeError
  | some ds =>
    match updateList key p ds with
    | Except.error e => Except.error e
    | Except.ok ds' => Except.ok { c with dpacks := some ds' }

/-- The `filter` callback of `removeDPack`: every entry's key is computed (so
a malformed stored url anywhere in the list throws), and entries whose key
differs from the searched one are kept. -/
def removeList (key : String) : List DPackEntry → Except JsError (List DPackEntry)
  | [] => Except.ok []
  | d :: rest =>
    match getDPackKey d.url with
    | Except.error e => Except.error e
    | Except.ok kd =>
      match removeList key rest with
      | Except.error e => Except.error e
      | Except.ok rest' => Except.ok (if kd ≠ key then d :: rest' else rest')

/-- Embeds `ForeverConfig.removeDPack` of `config.js`: filters out every
entry whose derived key matches and persists unconditionally. Calling
`.filter` on an absent `dpacks` collection throws a `TypeError`. -/
def removeDPack (c : Canonical) (key : String) : Except JsError Canonical :=
  match c.dpacks with
  | none => Except.error JsError.typeError
  | some ds =>
    match removeList key ds with
    | Except.error e => Except.error e
    | Except.ok ds' => Except.ok { c with dpacks := some ds' }

/-- The process environment `config.js` consults: `IS_DEBUG` is whether
`NODE_ENV` is one of `debug`, `staging`, `test`; `osHostname` and `homedir`
model `os.hostname()` and `os.homedir()`. -/
structure Env where
  isDebug : Bool
  osHostname : String
  homedir : String

/-- Whether a string ends with a path separator (`endsWith("/")` in
JavaScript), phrased on the character list so that proofs and concrete
evaluation stay within structural recursion. -/
def endsWithSlash (s : String) : Bool :=
  s.toList.getLast? = some '/'

/-- Whether a string starts with a path separator. -/
def startsWithSlash (s : String) : Bool :=
  s.toList.head? = some '/'

/-- Simplified model of Node's `path.join` on two segments: joins with a
single separator. The dot-segment normalization of the real function is not
exercised by any claim. -/
def joinPaths (a b : String) : String :=
  if endsWithSlash a then
    if startsWithSlash b then a ++ String.mk (b.toList.drop 1) else a ++ b
  else
    if startsWithSlash b then a ++ b else a ++ "/" ++ b

/-- Embeds `DEFAULT_CONFIG_DIRECTORY` of `config.js`:
`path.join(os.homedir(), ".forever")`. -/
def DEFAULT_CONFIG_DIRECTORY (env : Env) : String :=
  joinPaths env.homedir ".forever"

/-- Model of the external `untildify` package: a leading `~` that is the
whole string or is followed by a separator is replaced by the home
directory. -/
def untildify (env : Env) (s : String) : String :=
  match s.toList with
  | ['~'] => env.homedir
  | '~' :: '/' :: rest => env.homedir ++ String.mk ('/' :: rest)
  | _ => s

/-- Embeds the `directory` getter of `ForeverConfig`:
`untildify(this.canonical.directory || DEFAULT_CONFIG_DIRECTORY)`; the empty
string is falsy, so it also falls back to the default. -/
def ForeverConfig.directory (env : Env) (c : Canonical) : String :=
  untildify env
    (match c.directory with
      | some d => if d = "" then DEFAULT_CONFIG_DIRECTORY env else d
      | none => DEFAULT_CONFIG_DIRECTORY env)

/-- Embeds the `domain` getter of `ForeverConfig`: outside debug mode a
missing (or empty, hence falsy) canonical domain falls back to
`os.hostname()`; otherwise the canonical value is returned unchanged
(`none` models `undefined`). -/
def ForeverConfig.domain (env : Env) (c : Canonical) : Option String :=
  if env.isDebug = false ∧ (c.domain = none ∨ c.domain = some "") then
    some env.osHostname
  else c.domain

/-- Embeds the `httpMirror` getter: `this.canonical.httpMirror || false`. -/
def ForeverConfig.httpMirror (c : Canonical) : Bool :=
  (c.httpMirror).getD false

/-- The value returned by the `ports` getter, with both defaults applied. -/
structure PortsOut where
  http : Int
  https : Int
deriving DecidableEq, Repr

/-- Embeds the `ports` getter of `ForeverConfig`: each port defaults via
`||`, so an absent or zero (falsy) value becomes 80 or 443. -/
def ForeverConfig.ports (c : Canonical) : PortsOut :=
  let p := c.ports.getD { http := none, https := none }
  { http := match p.http with
      | some n => if n = 0 then 80 else n
      | none => 80
    https := match p.https with
      | some n => if n = 0 then 443 else n
      | none => 443 }

/-- JavaScript template-literal rendering of a possibly-`undefined` string,
as in the hostname interpolation of `ForeverDPackConfig.hostnames`. -/
def jsShow : Option String → String
  | some s => s
  | none => "undefined"

/-- Embeds the `hostnames` getter of `ForeverDPackConfig`:
the interpolated primary hostname followed by `otherDomains` (or `[]`). -/
def ForeverDPackConfig.hostnames (env : Env) (c : Canonical) (e : DPackEntry) :
    List String :=
  (e.name ++ "." ++ jsShow (ForeverConfig.domain env c)) :: e.otherDomains.getD []

/-- Embeds the `id` getter of `ForeverDPackConfig`:
the string `dpack-` followed by the derived key; computing the key throws on
a malformed url. -/
def ForeverDPackConfig.id (e : DPackEntry) : Except JsError String :=
  (getDPackKey e.url).map fun k => "dpack-" ++ k

/-- Embeds the `vhostType` getter of `ForeverDPackConfig`. -/
def ForeverDPackConfig.vhostType : String := "dweb"

/-- Embeds the `storageDirectory` getter of `ForeverDPackConfig`:
`path.join(this.config.directory, this.dPackKey)`. -/
def ForeverDPackConfig.storageDirectory (env : Env) (c : Canonical)
    (e : DPackEntry) : Except JsError String :=
  (getDPackKey e.url).map fun k => joinPaths (ForeverConfig.directory env c) k

/-- Embeds the `id` getter of `ForeverProxyConfig`. -/
def ForeverProxyConfig.id (p : ProxyEntry) : String := "proxy-" ++ p.from_

/-- Embeds the `hostnames` getter of `ForeverProxyConfig`. -/
def ForeverProxyConfig.hostnames (p : ProxyEntry) : List String := [p.from_]

/-- Embeds the `id` getter of `ForeverRedirectConfig`. -/
def ForeverRedirectConfig.id (r : RedirectEntry) : String := "redirect-" ++ r.from_

/-- Embeds the `hostnames` getter of `ForeverRedirectConfig`. -/
def ForeverRedirectConfig.hostnames (r : RedirectEntry) : List String := [r.from_]

/-- Embeds the `hostnames` getter of `ForeverConfig`: the global domain
(possibly `undefined`, hence the option type of the head) followed by the
flattened hostname lists of all vhosts in declaration order (dpacks, then
proxies, then redirects); duplicates are kept. -/
def ForeverConfig.hostnames (env : Env) (c : Canonical) : List (Option String) :=
  ForeverConfig.domain env c ::
    (((c.dpacks.getD []).map (ForeverDPackConfig.hostnames env c)).flatten ++
     ((c.proxies.getD []).map ForeverProxyConfig.hostnames).flatten ++
     ((c.redirects.getD []).map ForeverRedirectConfig.hostnames).flatten).map some

/-- One derived vhost, restricted to the computed attributes the claims
compare: identifier, vhost type, hostname list, and (for mirror entries) the
content key. -/
structure DerivedVhost where
  id : String
  vhostType : String
  hostnames : List String
  contentKey : Option String
deriving DecidableEq, Repr

/-- The mirror part of vhost derivation: one derived view per `dpacks`
entry, in order; a malformed mirror url throws. -/
def deriveDPackVhosts (env : Env) (c : Canonical) :
    List DPackEntry → Except JsError (List DerivedVhost)
  | [] => Except.ok []
  | e :: rest =>
    match getDPackKey e.url with
    | Except.error err => Except.error err
    | Except.ok k =>
      match deriveDPackVhosts env c rest with
      | Except.error err => Except.error err
      | Except.ok vs =>
        Except.ok ({ id := "dpack-" ++ k, vhostType := "dweb",
                     hostnames := ForeverDPackConfig.hostnames env c e,
                     contentKey := some k : DerivedVhost } :: vs)

/-- Derives the vhost views of every site entry of a canonical document, in
declaration order, mirroring the `allVhosts` getter of `ForeverConfig`
together with the per-class getters; a malformed mirror url throws. -/
def derivedVhosts (env : Env) (c : Canonical) : Except JsError (List DerivedVhost) :=
  match deriveDPackVhosts env c (c.dpacks.getD []) with
  | Except.error err => Except.error err
  | Except.ok ds =>
    Except.ok (ds ++
      ((c.proxies.getD []).map fun p =>
        { id := ForeverProxyConfig.id p, vhostType := "proxy",
          hostnames := ForeverProxyConfig.hostnames p, contentKey := none : DerivedVhost }) ++
      ((c.redirects.getD []).map fun r =>
        { id := ForeverRedirectConfig.id r, vhostType := "redirect",
          hostnames := ForeverRedirectConfig.hostnames r, contentKey := none : DerivedVhost }))

/-- The normalization `validate` applies to each redirect target:
`redirect.to.replace(/\/$/, "")`, removing one trailing slash. -/
def stripTrailingSlash (s : String) : String :=
  if endsWithSlash s then String.mk s.toList.dropLast else s

/-- Embeds `validateDPackCfg` of `config.js` on a typed entry. The
array-wrapping of a scalar `otherDomains` and the `typeof` checks on the
entry and its `name` are subsumed by typing; what remains is the url-shape
check and the domain check on every `otherDomains` item, with the external
`is-domain-name` predicate passed in as `isDomain`. -/
def validateDPackCfg (isDomain : String → Bool) (d : DPackEntry) :
    Except JsError DPackEntry :=
  if isDWebUrl d.url then
    match d.otherDomains with
    | some doms =>
      if doms.all isDomain then Except.ok d else Except.error JsError.configError
    | none => Except.ok d
  else Except.error JsError.configError

/-- The `forEach` over mirror entries in `validate` of `config.js`. -/
def validateDPacks (isDomain : String → Bool) :
    List DPackEntry → Except JsError Unit
  | [] => Except.ok ()
  | d :: rest =>
    match validateDPackCfg isDomain d with
    | Except.error e => Except.error e
    | Except.ok _ => validateDPacks isDomain rest

/-- The `forEach` over proxies in `validate`: each `from` must be a domain
and each `to` an origin url (external predicates). -/
def validateProxies (isDomain isOrigin : String → Bool) :
    List ProxyEntry → Except JsError Unit
  | [] => Except.ok ()
  | p :: rest =>
    if isDomain p.from_ && isOrigin p.to_ then validateProxies isDomain isOrigin rest
    else Except.error JsError.configError

/-- The `forEach` over redirects in `validate`: the checks of
`validateProxies` plus the in-place normalization of `to`. -/
def normalizeRedirects (isDomain isOrigin : String → Bool) :
    List RedirectEntry → Except JsError (List RedirectEntry)
  | [] => Except.ok []
  | r :: rest =>
    if isDomain r.from_ && isOrigin r.to_ then
      match normalizeRedirects isDomain isOrigin rest with
      | Except.error e => Except.error e
      | Except.ok rest' => Except.ok ({ r with to_ := stripTrailingSlash r.to_ } :: rest')
    else Except.error JsError.configError

/-- The guarded dpacks check of `validate`: an `if (config.dpacks)` guard
treats any present list, including the empty one, as truthy, and an absent
key skips validation. -/
def checkDPacksOpt (isDomain : String → Bool) :
    Option (List DPackEntry) → Except JsError Unit
  | some ds => validateDPacks isDomain ds
  | none => Except.ok ()

/-- The guarded proxies check: an absent `proxies` key skips validation. -/
def checkProxiesOpt (isDomain isOrigin : String → Bool) :
    Option (List ProxyEntry) → Except JsError Unit
  | some ps => validateProxies isDomain isOrigin ps
  | none => Except.ok ()

/-- Embeds `validate` of `config.js` on the typed document. The scalar type
checks on `directory`, `domain`, `httpMirror` and `ports` are subsumed by
typing; the behavioral parts are the per-entry checks (with the external
`is-domain-name` and `is-http-url` predicates passed in) and the one
normalization that survives on typed data: stripping a trailing slash from
each redirect target. -/
def validateNormalize (isDomain isOrigin : String → Bool) (c : Canonical) :
    Except JsError Canonical :=
  match checkDPacksOpt isDomain c.dpacks with
  | Except.error e => Except.error e
  | Except.ok _ =>
    match checkProxiesOpt isDomain isOrigin c.proxies with
    | Except.error e => Except.error e
    | Except.ok _ =>
      match c.redirects with
      | some rs =>
        match normalizeRedirects isDomain isOrigin rs with
        | Except.error e => Except.error e
        | Except.ok rs' => Except.ok { c with redirects := some rs' }
      | none => Except.ok c

/-- Model of the persistence round trip of `config.js`: `writeToFile`
serializes the canonical document with `yaml.safeDump` and `readFromFile`
parses it back with `yaml.safeLoad` and runs `validate`. On the typed
documents embedded here the external yaml dump/load pair is the identity
(every modelled value is serializable, so `skipInvalid` never fires), which
leaves validation as the only transformation. -/
def roundTrip (isDomain isOrigin : String → Bool) (c : Canonical) :
    Except JsError Canonical :=
  validateNormalize isDomain isOrigin c

/-- The request methods distinguished by `createHttpMirror` in `dweb.js`. -/
inductive Method
  | GET
  | HEAD
  | OTHER
deriving DecidableEq, Repr

/-- Result of a path lookup in the archive (`dpackapi.stat`): directory
flag and size, produced by the external archive collaborator. -/
structure FsStat where
  isDir : Bool
  size : Nat
deriving DecidableEq, Repr

/-- The per-archive manifest fields `createHttpMirror` reads; a `none` field
is absent from the manifest (or the whole manifest is absent). -/
structure Manifest where
  web_root : Option String := none
  fallback_page : Option String := none
  content_security_policy : Option String := none
deriving DecidableEq, Repr

/-- Outcome of the external `range-parser` package on the `Range` header and
the entry size: `noRange` covers an absent header and every parse outcome
other than a byte range (`-1`, `-2`, or another unit type); `bytes` carries
the nonempty list of parsed ranges, of which the code reads only index 0. -/
inductive RangeResult
  | noRange
  | bytes (first : Nat × Nat) (rest : List (Nat × Nat))
deriving DecidableEq, Repr

/-- Behavior of the archive read stream for the resolved entry, as observed
through `mime.identifyStream` in `dweb.js`: either a first chunk arrives and
the sniffer reports a content type, or the stream ends with zero bytes, or
it fails before any data was seen. -/
inductive StreamBehavior
  | hasData (mimeType : String)
  | endsEmpty
  | failsBeforeData
deriving DecidableEq, Repr

/-- What `createHttpMirror` hands to the response as a body: nothing
(`res.end()`), a literal text (`res.end(string)`), the rendered directory
listing (delegated to `directoryListingPage`), or the piped file stream. -/
inductive Body
  | empty
  | text (s : String)
  | listing (path : String) (webRoot : Option String)
  | fileStream
deriving DecidableEq, Repr

/-- The response plan produced by one run of the `createHttpMirror` handler:
status code, the headers set via `res.set` in order, and the body. -/
structure HttpResponse where
  status : Nat
  headers : List (String × String)
  body : Body
deriving DecidableEq, Repr

/-- Embeds `respondError` of `dweb.js`: `res.status(code)` followed by
`res.end(code + " " + status)` — the textual body is written regardless of
the request method. Headers already set on the response are kept. -/
def respondError (hs : List (String × String)) (code : Nat) (status : String) :
    HttpResponse :=
  { status := code, headers := hs,
    body := Body.text (Nat.repr code ++ " " ++ status) }

/-- The path actually handed to `dpackapi.stat` by `tryStat`: a truthy
manifest `web_root` is prefixed (a falsy looked-up path is replaced by the
web root alone). -/
def lookupPath (man : Option Manifest) (p : String) : String :=
  match Option.bind man Manifest.web_root with
  | some wr => if wr = "" then p else if p = "" then wr else joinPaths wr p
  | none => p

/-- Embeds `tryStat` of `dweb.js` for one candidate path: the stat result
together with the (web-root-adjusted) path recorded on the entry. -/
def tryStat (fs : String → Option FsStat) (man : Option Manifest) (p : String) :
    Option (FsStat × String) :=
  (fs (lookupPath man p)).map fun e => (e, lookupPath man p)

/-- The candidate-resolution cascade of `dweb.js`: for a folder request
`index.html`, then `index.md`, then the path itself; otherwise the path,
then the path with `.html` appended — first hit wins. -/
def resolveCandidate (fs : String → Option FsStat) (man : Option Manifest)
    (isFolder : Bool) (reqPath : String) : Option (FsStat × String) :=
  if isFolder then
    (tryStat fs man (reqPath ++ "index.html")).orElse fun _ =>
      (tryStat fs man (reqPath ++ "index.md")).orElse fun _ =>
        tryStat fs man reqPath
  else
    (tryStat fs man reqPath).orElse fun _ => tryStat fs man (reqPath ++ ".html")

/-- The tail of `createHttpMirror` after a non-directory candidate was
resolved: `Accept-Ranges` is always set; a parsed byte range switches the
status to 206 and sets `Content-Range` and `Content-Length` from the first
range unit only; otherwise a nonzero (truthy) size sets `Content-Length`.
Then the read stream drives the outcome: on identified data, headers are
completed and a HEAD request is answered `204` with no body while a GET
streams the file; a stream that ends with zero bytes yields an empty `200`;
a failure before any data yields the `500` error text. -/
def serveFile (cspHeader : String) (parsedRange : Nat → RangeResult)
    (stream : StreamBehavior) (method : Method) (e : FsStat) : HttpResponse :=
  let hs0 := [("Accept-Ranges", "bytes")]
  let ranged := parsedRange e.size
  let statusCode : Nat :=
    match ranged with
    | RangeResult.bytes _ _ => 206
    | RangeResult.noRange => 200
  let hs1 :=
    match ranged with
    | RangeResult.bytes (s, en) _ =>
      hs0 ++ [("Content-Range",
                "bytes " ++ Nat.repr s ++ "-" ++ Nat.repr en ++ "/" ++ Nat.repr e.size),
              ("Content-Length", Nat.repr (en - s + 1))]
    | RangeResult.noRange =>
      if e.size ≠ 0 then hs0 ++ [("Content-Length", Nat.repr e.size)] else hs0
  match stream with
  | StreamBehavior.hasData mimeType =>
    let hs2 := hs1 ++ [("Content-Type", mimeType),
                       ("Content-Security-Policy", cspHeader),
                       ("Access-Control-Allow-Origin", "*"),
                       ("Cache-Control", "public, max-age: 60")]
    if method = Method.HEAD then { status := 204, headers := hs2, body := Body.empty }
    else { status := statusCode, headers := hs2, body := Body.fileStream }
  | StreamBehavior.endsEmpty =>
    { status := 200,
      headers := hs1 ++ [("Content-Security-Policy", cspHeader),
                         ("Access-Control-Allow-Origin", "*")],
      body := Body.empty }
  | StreamBehavior.failsBeforeData => respondError hs1 500 "Failed to read file"

/-- The response CSP header value: the manifest's
`content_security_policy` when the manifest carries one (a string; the empty
string is falsy and leaves the default), else the empty string. -/
def cspOf (man : Option Manifest) : String :=
  (Option.bind man Manifest.content_security_policy).getD ""

/-- The folder-without-trailing-slash detection of `dweb.js`: for a path
that does not end in a separator, probe it, and report true exactly when the
probe hits a directory. -/
def redirect303 (fs : String → Option FsStat) (man : Option Manifest)
    (reqPath : String) : Bool :=
  if endsWithSlash reqPath then false
  else
    match tryStat fs man reqPath with
    | some (e, _) => e.isDir
    | none => false

/-- The directory-candidate response of `dweb.js`: html headers with the
CSP; HEAD gets an empty `204`, GET a `200` whose body is the rendered
directory listing (delegated to `directoryListingPage` with the request path
and the manifest web root). -/
def dirResponse (csp : String) (webRoot : Option String) (method : Method)
    (reqPath : String) : HttpResponse :=
  let hs := [("Content-Type", "text/html"),
             ("Content-Security-Policy", csp),
             ("Access-Control-Allow-Origin", "*")]
  if method = Method.HEAD then { status := 204, headers := hs, body := Body.empty }
  else { status := 200, headers := hs, body := Body.listing reqPath webRoot }

/-- The fallback-page probe of `dweb.js`: only a truthy manifest
`fallback_page` is statted (with the web root applied by `tryStat`). -/
def fallbackStat (fs : String → Option FsStat) (man : Option Manifest) :
    Option (FsStat × String) :=
  match Option.bind man Manifest.fallback_page with
  | some fb => if fb = "" then none else tryStat fs man fb
  | none => none

/-- Embeds the request handler built by `createHttpMirror` of `dweb.js` as a
function from the request (method and path), the archive stat function, the
manifest, the parsed range (a function of the entry size, standing for
`parseRange(entry.size, req.headers.range)`), and the read-stream behavior,
to the response plan. -/
def handleRequest (fs : String → Option FsStat) (man : Option Manifest)
    (parsedRange : Nat → RangeResult) (stream : StreamBehavior)
    (method : Method) (reqPath : String) : HttpResponse :=
  if redirect303 fs man reqPath then
    { status := 303, headers := [("Location", reqPath ++ "/")], body := Body.empty }
  else
    match resolveCandidate fs man (endsWithSlash reqPath) reqPath with
    | some (e, _) =>
      if e.isDir then
        dirResponse (cspOf man) (Option.bind man Manifest.web_root) method reqPath
      else serveFile (cspOf man) parsedRange stream method e
    | none =>
      match fallbackStat fs man with
      | some (e, _) => serveFile (cspOf man) parsedRange stream method e
      | none => respondError [] 404 "File Not Found"

/-- The method dispatch at the top of the handler: any method other than
GET and HEAD is rejected with `405` before anything else happens. -/
def createHttpMirror (fs : String → Option FsStat) (man : Option Manifest)
    (parsedRange : Nat → RangeResult) (stream : StreamBehavior)
    (method : Method) (reqPath : String) : HttpResponse :=
  match method with
  | Method.OTHER => respondError [] 405 "Method Not Supported"
  | _ => handleRequest fs man parsedRange stream method reqPath

/-- The characters of a case variant of the scheme `dweb://`. -/
def schemeChars (d w e b : Char) : List Char := [d, w, e, b, ':', '/', '/']

theorem keyMatchCore_eq_some {cs k : List Char} :
    keyMatchCore cs = some k ↔
      k.length = 64 ∧ k.all isHexChar = true ∧ (cs = k ∨ cs = k ++ ['/']) := by
  constructor
  · intro h
    unfold keyMatchCore at h
    split at h
    · next hc =>
      obtain ⟨h1, h2, h3⟩ := hc
      injection h with h
      subst h
      refine ⟨h1, h2, ?_⟩
      rcases h3 with h3 | h3
      · left
        conv_lhs => rw [← List.take_append_drop 64 cs]
        rw [h3, List.append_nil]
      · right
        conv_lhs => rw [← List.take_append_drop 64 cs]
        rw [h3]
    · exact absurd h (by simp)
  · rintro ⟨h1, h2, h3⟩
    rcases h3 with rfl | rfl
    · unfold keyMatchCore
      rw [List.take_of_length_le (by omega), List.drop_of_length_le (by omega)]
      simp [h1, h2]
    · unfold keyMatchCore
      rw [List.take_left' h1, List.drop_left' h1]
      simp [h1, h2]

theorem matchSchemeCI_eq_some {cs rest : List Char} :
    matchSchemeCI cs = some rest ↔
      ∃ d w e b, (d = 'd' ∨ d = 'D') ∧ (w = 'w' ∨ w = 'W') ∧ (e = 'e' ∨ e = 'E') ∧
        (b = 'b' ∨ b = 'B') ∧ cs = schemeChars d w e b ++ rest := by
  constructor
  · intro h
    unfold matchSchemeCI at h
    split at h
    · next d w e b c s1 s2 rest' =>
      split at h
      · next hc =>
        obtain ⟨hd, hw, he, hb, hc1, hs1, hs2⟩ := hc
        injection h with h
        subst h hc1 hs1 hs2
        exact ⟨d, w, e, b, hd, hw, he, hb, rfl⟩
      · exact absurd h (by simp)
    · exact absurd h (by simp)
  · rintro ⟨d, w, e, b, hd, hw, he, hb, rfl⟩
    show (if (d = 'd' ∨ d = 'D') ∧ (w = 'w' ∨ w = 'W') ∧ (e = 'e' ∨ e = 'E') ∧
        (b = 'b' ∨ b = 'B') ∧ ':' = ':' ∧ '/' = '/' ∧ '/' = '/' then
        some rest else (none : Option (List Char))) = some rest
    rw [if_pos ⟨hd, hw, he, hb, rfl, rfl, rfl⟩]

theorem matchSchemeCI_of_hex {k : List Char} (t : List Char) (h1 : k.length = 64)
    (h2 : k.all isHexChar = true) : matchSchemeCI (k ++ t) = none := by
  cases hm : matchSchemeCI (k ++ t) with
  | none => rfl
  | some rest =>
    exfalso
    rw [matchSchemeCI_eq_some] at hm
    obtain ⟨d, w, e, b, _, _, _, _, hshape⟩ := hm
    have h4 : (k ++ t)[4]? = some ':' := by rw [hshape]; rfl
    rw [List.getElem?_append_left (by omega)] at h4
    have hmem : ':' ∈ k := by
      obtain ⟨hlt, hk⟩ := List.getElem?_eq_some_iff.mp h4
      exact hk ▸ List.getElem_mem hlt
    have := List.all_eq_true.mp h2 _ hmem
    exact absurd this (by decide)

theorem dPackKeyMatchList_eq_some {cs k : List Char} :
    dPackKeyMatchList cs = some k ↔
      k.length = 64 ∧ k.all isHexChar = true ∧
        ((cs = k ∨ cs = k ++ ['/']) ∨
          ∃ d w e b, (d = 'd' ∨ d = 'D') ∧ (w = 'w' ∨ w = 'W') ∧ (e = 'e' ∨ e = 'E') ∧
            (b = 'b' ∨ b = 'B') ∧
            (cs = schemeChars d w e b ++ k ∨ cs = schemeChars d w e b ++ (k ++ ['/']))) := by
  constructor
  · intro h
    unfold dPackKeyMatchList at h
    split at h
    · next rest hm =>
      rw [keyMatchCore_eq_some] at h
      obtain ⟨h1, h2, h3⟩ := h
      rw [matchSchemeCI_eq_some] at hm
      obtain ⟨d, w, e, b, hd, hw, he, hb, rfl⟩ := hm
      exact ⟨h1, h2, Or.inr ⟨d, w, e, b, hd, hw, he, hb, by
        rcases h3 with rfl | rfl
        · exact Or.inl rfl
        · exact Or.inr rfl⟩⟩
    · rw [keyMatchCore_eq_some] at h
      exact ⟨h.1, h.2.1, Or.inl h.2.2⟩
  · rintro ⟨h1, h2, h3⟩
    rcases h3 with (h3 | h3) | ⟨d, w, e, b, hd, hw, he, hb, h3 | h3⟩ <;> rw [h3]
    · unfold dPackKeyMatchList
      rw [show matchSchemeCI k = none from by
        conv_lhs => rw [← List.append_nil k]
        exact matchSchemeCI_of_hex [] h1 h2]
      rw [keyMatchCore_eq_some]
      exact ⟨h1, h2, Or.inl rfl⟩
    · unfold dPackKeyMatchList
      rw [matchSchemeCI_of_hex ['/'] h1 h2]
      rw [keyMatchCore_eq_some]
      exact ⟨h1, h2, Or.inr rfl⟩
    · unfold dPackKeyMatchList
      rw [show matchSchemeCI (schemeChars d w e b ++ k) = some k from
        matchSchemeCI_eq_some.mpr ⟨d, w, e, b, hd, hw, he, hb, rfl⟩]
      rw [keyMatchCore_eq_some]
      exact ⟨h1, h2, Or.inl rfl⟩
    · unfold dPackKeyMatchList
      rw [show matchSchemeCI (schemeChars d w e b ++ (k ++ ['/'])) = some (k ++ ['/']) from
        matchSchemeCI_eq_some.mpr ⟨d, w, e, b, hd, hw, he, hb, rfl⟩]
      rw [keyMatchCore_eq_some]
      exact ⟨h1, h2, Or.inr rfl⟩

/-- A fixed 64-character hex key used in the concrete scenarios below. -/
def kA : String := "aaaaaaaaaaaaaaaaaaaaaaaaaaaaaaaaaaaaaaaaaaaaaaaaaaaaaaaaaaaaaaaa"

/-- Claim C4, amended: content-key extraction succeeds exactly on a
case-insensitive spelling of the `dweb://` scheme or no scheme at all,
followed by 64 hex characters (case-insensitive), followed by an optional
trailing slash — so besides the three shapes the claim lists it also
accepts a bare key with a trailing slash and case variants of the scheme —
and it returns the 64 hex characters as they appeared. -/
theorem getDPackKey_characterization (s k : String) :
    dPackKeyMatch s = some k ↔
      k.toList.length = 64 ∧ k.toList.all isHexChar = true ∧
        ((s.toList = k.toList ∨ s.toList = k.toList ++ ['/']) ∨
          ∃ d w e b, (d = 'd' ∨ d = 'D') ∧ (w = 'w' ∨ w = 'W') ∧ (e = 'e' ∨ e = 'E') ∧
            (b = 'b' ∨ b = 'B') ∧
            (s.toList = schemeChars d w e b ++ k.toList ∨
              s.toList = schemeChars d w e b ++ (k.toList ++ ['/']))) := by
  unfold dPackKeyMatch
  rw [Option.map_eq_some']
  constructor
  · rintro ⟨kl, hm, rfl⟩
    exact dPackKeyMatchList_eq_some.mp hm
  · intro h
    refine ⟨k.toList, dPackKeyMatchList_eq_some.mpr h, ?_⟩
    cases k
    rfl

/-- Claim C4, counterexample: a bare 64-hex key followed by a slash is
accepted by `getDPackKey` although it is none of the three shapes the claim
lists — it does not start with `dweb://` and it is not a bare 64-character
string (it has 65 characters). -/
theorem getDPackKey_counterexample :
    dPackKeyMatch (kA ++ "/") = some kA ∧
      (kA ++ "/").toList.take 7 ≠ "dweb://".toList ∧
      (kA ++ "/").toList.length ≠ 64 := by
  decide

/-- Claim C3, amended: the derived vhost id of a mirror (dpack) entry is the
literal prefix `dpack-` (not `mirror-`) followed by the content key, while
proxy and redirect ids are `proxy-` and `redirect-` followed by `from`. -/
theorem vhost_id_shapes (e : DPackEntry) (k : String)
    (h : getDPackKey e.url = Except.ok k) (p : ProxyEntry) (r : RedirectEntry) :
    ForeverDPackConfig.id e = Except.ok ("dpack-" ++ k) ∧
      ForeverProxyConfig.id p = "proxy-" ++ p.from_ ∧
      ForeverRedirectConfig.id r = "redirect-" ++ r.from_ := by
  refine ⟨?_, rfl, rfl⟩
  unfold ForeverDPackConfig.id
  rw [h]
  rfl

/-- Witness for `vhost_id_shapes` at a concrete mirror entry, proxy and
redirect. -/
theorem vhost_id_shapes_witness :
    getDPackKey ("dweb://" ++ kA ++ "/") = Except.ok kA ∧
      ForeverDPackConfig.id
          { url := "dweb://" ++ kA ++ "/", name := "mysite", otherDomains := none } =
        Except.ok ("dpack-" ++ kA) ∧
      ForeverProxyConfig.id { from_ := "myproxy.com", to_ := "https://mysite.com/" } =
        "proxy-" ++ "myproxy.com" := by
  have h : getDPackKey ("dweb://" ++ kA ++ "/") = Except.ok kA := by decide
  have hmain := vhost_id_shapes
    { url := "dweb://" ++ kA ++ "/", name := "mysite", otherDomains := none } kA h
    { from_ := "myproxy.com", to_ := "https://mysite.com/" }
    { from_ := "myredirect.com", to_ := "https://mysite.com" }
  exact ⟨h, hmain.1, hmain.2.1⟩

/-- Claim C3, counterexample: at a concrete mirror entry the derived id is
`dpack-` followed by the key, which differs from the claimed `mirror-`
prefix (the repository's own test instead expects a `dweb-` prefix, which
the code also does not produce). -/
theorem mirror_id_counterexample :
    ForeverDPackConfig.id
        { url := "dweb://" ++ kA ++ "/", name := "mysite", otherDomains := none } =
      Except.ok ("dpack-" ++ kA) ∧ "dpack-" ++ kA ≠ "mirror-" ++ kA := by
  decide

theorem getDPackKey_eq_ok {u k : String} :
    getDPackKey u = Except.ok k ↔ dPackKeyMatch u = some k := by
  unfold getDPackKey
  constructor
  · intro h
    split at h
    · next k' hm =>
      injection h with h2
      subst h2
      exact hm
    · exact absurd h (by simp)
  · intro h
    rw [h]

theorem getDPackKey_error_eq {u : String} {e : JsError}
    (h : getDPackKey u = Except.error e) : e = JsError.typeError := by
  unfold getDPackKey at h
  split at h
  · exact absurd h (by simp)
  · injection h with h2
    exact h2.symm

theorem zip_self_eq {α : Type} (l : List α) : ∀ pr ∈ l.zip l, pr.1 = pr.2 := by
  induction l with
  | nil => simp
  | cons a l ih =>
    intro pr h
    simp only [List.zip_cons_cons, List.mem_cons] at h
    rcases h with rfl | h
    · rfl
    · exact ih pr h

theorem updateList_ok {key : String} {p : DPackEntry} {ds ds' : List DPackEntry}
    (h : updateList key p ds = Except.ok ds') :
    ds'.map DPackEntry.name = ds.map DPackEntry.name ∧
      (∀ pr ∈ ds'.zip ds, pr.1 = pr.2 ∨
        (pr.1.url = p.url ∧ pr.1.otherDomains = p.otherDomains)) ∧
      ((∀ d ∈ ds, dPackKeyMatch d.url ≠ some key) → ds' = ds) := by
  induction ds generalizing ds' with
  | nil =>
    unfold updateList at h
    injection h with h
    subst h
    simp
  | cons d rest ih =>
    unfold updateList at h
    split at h
    · exact absurd h (by simp)
    · next kd hkd =>
      split at h
      · next heq =>
        injection h with h
        subst h
        refine ⟨by simp [applyUpdate], ?_, ?_⟩
        · intro pr hpr
          simp only [List.zip_cons_cons, List.mem_cons] at hpr
          rcases hpr with rfl | hpr
          · exact Or.inr ⟨rfl, rfl⟩
          · exact Or.inl (zip_self_eq rest pr hpr)
        · intro hno
          exact absurd (getDPackKey_eq_ok.mp (heq ▸ hkd)) (hno d (by simp))
      · next hne =>
        split at h
        · exact absurd h (by simp)
        · next rest' hrest =>
          injection h with h
          subst h
          obtain ⟨ih1, ih2, ih3⟩ := ih hrest
          refine ⟨by simp [ih1], ?_, ?_⟩
          · intro pr hpr
            simp only [List.zip_cons_cons, List.mem_cons] at hpr
            rcases hpr with rfl | hpr
            · exact Or.inl rfl
            · exact ih2 pr hpr
          · intro hno
            rw [ih3 fun x hx => hno x (List.mem_cons_of_mem _ hx)]

/-- Claim C1, amended: `updateDPack` on an existing key overwrites the found
entry's stored `url` with the payload's `url` (so the stored url string, and
with it the derived content key, can change) and replaces or deletes its
`otherDomains`; names and all other entries are untouched, and a key with no
matching entry leaves the document unchanged (silent no-op). -/
theorem updateDPack_effect (c : Canonical) (ds : List DPackEntry) (key : String)
    (p : DPackEntry) (c' : Canonical) (hds : c.dpacks = some ds)
    (h : updateDPack c key p = Except.ok c') :
    ∃ ds', c'.dpacks = some ds' ∧
      ds'.map DPackEntry.name = ds.map DPackEntry.name ∧
      (∀ pr ∈ ds'.zip ds, pr.1 = pr.2 ∨
        (pr.1.url = p.url ∧ pr.1.otherDomains = p.otherDomains)) ∧
      ((∀ d ∈ ds, dPackKeyMatch d.url ≠ some key) → c' = c) := by
  unfold updateDPack at h
  simp only [hds] at h
  split at h
  · exact absurd h (by simp)
  · next ds' hds' =>
    injection h with h
    subst h
    obtain ⟨h1, h2, h3⟩ := updateList_ok hds'
    refine ⟨ds', rfl, h1, h2, ?_⟩
    intro hno
    rw [h3 hno, ← hds]

/-- A concrete mirror entry storing its url in the bare-key form. -/
def eA : DPackEntry := { url := kA, name := "site", otherDomains := none }

/-- A concrete canonical document holding the single mirror entry `eA`. -/
def cA : Canonical := { dpacks := some [eA] }

/-- A concrete update payload: same content key in `dweb://` form, an empty
hostname list. -/
def pA : DPackEntry :=
  { url := "dweb://" ++ kA ++ "/", name := "site", otherDomains := some [] }

/-- Witness for `updateDPack_effect` at the concrete document `cA`. -/
theorem updateDPack_effect_witness :
    ∃ ds', (Canonical.mk none none none none
        (some [{ url := "dweb://" ++ kA ++ "/", name := "site",
                 otherDomains := some [] }]) none none).dpacks = some ds' ∧
      ds'.map DPackEntry.name = [eA].map DPackEntry.name ∧
      (∀ pr ∈ ds'.zip [eA], pr.1 = pr.2 ∨
        (pr.1.url = pA.url ∧ pr.1.otherDomains = pA.otherDomains)) ∧
      ((∀ d ∈ [eA], dPackKeyMatch d.url ≠ some kA) →
        (Canonical.mk none none none none
          (some [{ url := "dweb://" ++ kA ++ "/", name := "site",
                   otherDomains := some [] }]) none none) = cA) :=
  updateDPack_effect cA [eA] kA pA _ rfl (by decide)

/-- Claim C1, counterexample: updating the entry stored under key `kA` with
a payload whose url is the `dweb://` spelling of the same key overwrites the
stored `url` field, so the stored url is not preserved. -/
theorem updateDPack_url_overwritten :
    updateDPack cA kA
        { url := "dweb://" ++ kA ++ "/", name := "site", otherDomains := none } =
      Except.ok { dpacks := some [{ url := "dweb://" ++ kA ++ "/", name := "site",
                                    otherDomains := none }] } ∧
      ("dweb://" ++ kA ++ "/") ≠ eA.url := by
  decide

/-- Claim C5, amended: when `updateDPack` hits an entry, the stored
`otherDomains` becomes exactly the payload's value — an omitted value
deletes the field, but an empty list, which JavaScript treats as truthy, is
stored as an empty list rather than deleted. -/
theorem updateDPack_otherDomains (c : Canonical) (d : DPackEntry)
    (rest : List DPackEntry) (key : String) (p : DPackEntry)
    (hds : c.dpacks = some (d :: rest)) (hk : getDPackKey d.url = Except.ok key) :
    updateDPack c key p =
      Except.ok { c with dpacks := some ({ url := p.url, name := d.name, otherDomains := p.otherDomains } :: rest) } := by
  unfold updateDPack
  simp only [hds]
  unfold updateList
  simp only [hk]
  simp [applyUpdate]

/-- Witness for `updateDPack_otherDomains`: the concrete update `pA`, whose
payload carries an empty `otherDomains` list, stores the empty list. -/
theorem updateDPack_otherDomains_witness :
    updateDPack cA kA pA =
      Except.ok { cA with dpacks := some ({ url := pA.url, name := eA.name, otherDomains := pA.otherDomains } :: []) } :=
  updateDPack_otherDomains cA eA [] kA pA rfl (by decide)

/-- Claim C5, counterexample: an update whose payload carries an empty
hostname list leaves an empty-list `otherDomains` stored on the entry — the
field is not deleted, because the empty array is truthy in JavaScript. -/
theorem updateDPack_emptyList_stored :
    updateDPack cA kA pA =
      Except.ok { dpacks := some [{ url := "dweb://" ++ kA ++ "/", name := "site",
                                    otherDomains := some [] }] } ∧
      some ([] : List String) ≠ (none : Option (List String)) := by
  decide

theorem findByKey_none {key : String} {ds : List DPackEntry}
    (hvalid : ∀ d ∈ ds, (dPackKeyMatch d.url).isSome = true)
    (hno : ∀ d ∈ ds, dPackKeyMatch d.url ≠ some key) :
    findByKey key ds = Except.ok none := by
  induction ds with
  | nil => rfl
  | cons d rest ih =>
    unfold findByKey
    obtain ⟨kd, hkd⟩ := Option.isSome_iff_exists.mp (hvalid d (by simp))
    rw [show getDPackKey d.url = Except.ok kd from by unfold getDPackKey; rw [hkd]]
    have hne : kd ≠ key := fun heq => hno d (by simp) (heq ▸ hkd)
    have hrest := ih (fun x hx => hvalid x (List.mem_cons_of_mem _ hx))
      (fun x hx => hno x (List.mem_cons_of_mem _ hx))
    simp [hne, hrest]

theorem removeList_append_match {key : String} {e : DPackEntry}
    (hk : getDPackKey e.url = Except.ok key) :
    ∀ {ds : List DPackEntry},
      (∀ d ∈ ds, (dPackKeyMatch d.url).isSome = true) →
      (∀ d ∈ ds, dPackKeyMatch d.url ≠ some key) →
      removeList key (ds ++ [e]) = Except.ok ds := by
  intro ds
  induction ds with
  | nil =>
    intro _ _
    show removeList key [e] = Except.ok []
    unfold removeList
    rw [hk]
    simp [removeList]
  | cons d rest ih =>
    intro hvalid hno
    show removeList key (d :: (rest ++ [e])) = Except.ok (d :: rest)
    unfold removeList
    obtain ⟨kd, hkd⟩ := Option.isSome_iff_exists.mp (hvalid d (by simp))
    rw [show getDPackKey d.url = Except.ok kd from by unfold getDPackKey; rw [hkd]]
    rw [ih (fun x hx => hvalid x (List.mem_cons_of_mem _ hx))
      (fun x hx => hno x (List.mem_cons_of_mem _ hx))]
    have hne : kd ≠ key := fun heq => hno d (by simp) (heq ▸ hkd)
    simp [hne]

/-- Claim C6, amended: when the original list holds no entry with the new
entry's derived key, `addDPack` appends it and `removeDPack` with that key
restores the original document exactly; when an entry with that key already
exists, `addDPack` is a silent no-op and `removeDPack` then deletes every
entry with the key, so the add/remove pair does not restore the list. -/
theorem add_then_remove (c : Canonical) (ds : List DPackEntry) (e : DPackEntry)
    (key : String) (hds : c.dpacks = some ds) (hk : getDPackKey e.url = Except.ok key)
    (hvalid : ∀ d ∈ ds, (dPackKeyMatch d.url).isSome = true)
    (hno : ∀ d ∈ ds, dPackKeyMatch d.url ≠ some key) :
    addDPack c e = Except.ok { c with dpacks := some (ds ++ [e]) } ∧
      removeDPack { c with dpacks := some (ds ++ [e]) } key = Except.ok c := by
  constructor
  · unfold addDPack
    rw [hk]
    simp only [hds]
    rw [findByKey_none hvalid hno]
  · unfold removeDPack
    show (match removeList key (ds ++ [e]) with
          | Except.error e => Except.error e
          | Except.ok ds' =>
            Except.ok { c with dpacks := some ds' }) = Except.ok c
    rw [removeList_append_match hk hvalid hno]
    show Except.ok { c with dpacks := some ds } = Except.ok c
    rw [show some ds = c.dpacks from hds.symm]

/-- Witness for `add_then_remove`: adding a fresh entry to the empty site
list and removing its key restores the empty list. -/
theorem add_then_remove_witness :
    addDPack { dpacks := some [] } eA =
        Except.ok { ({ dpacks := some [] } : Canonical) with dpacks := some ([] ++ [eA]) } ∧
      removeDPack { ({ dpacks := some [] } : Canonical) with dpacks := some ([] ++ [eA]) } kA =
        Except.ok { dpacks := some [] } :=
  add_then_remove { dpacks := some [] } [] eA kA rfl (by decide) (by simp) (by simp)

/-- Claim C6, counterexample: the document `cA` already holds an entry with
key `kA` (and no duplicate keys); adding another entry with the same key is
a silent no-op, and the subsequent remove deletes the pre-existing entry, so
the final site list is empty instead of the original one-entry list. -/
theorem add_then_remove_counterexample :
    addDPack cA { url := "dweb://" ++ kA ++ "/", name := "other", otherDomains := none } =
        Except.ok cA ∧
      removeDPack cA kA = Except.ok { dpacks := some [] } ∧
      ([] : List DPackEntry).length ≠ [eA].length := by
  decide

/-- Claim C10: on a canonical document without a `dpacks` collection, every
site mutation (`addDPack`, `updateDPack`, `removeDPack`) throws a
`TypeError` instead of performing the documented silent no-op or
unconditional persist. -/
theorem mutations_typeError (c : Canonical) (e : DPackEntry) (key : String)
    (p : DPackEntry) (h : c.dpacks = none) :
    addDPack c e = Except.error JsError.typeError ∧
      updateDPack c key p = Except.error JsError.typeError ∧
      removeDPack c key = Except.error JsError.typeError := by
  refine ⟨?_, ?_, ?_⟩
  · unfold addDPack
    split
    · next err herr => rw [getDPackKey_error_eq herr]
    · simp [h]
  · unfold updateDPack
    simp [h]
  · unfold removeDPack
    simp [h]

/-- Witness for `mutations_typeError` at the empty canonical document, the
in-memory state after loading an empty or missing config file. -/
theorem mutations_typeError_witness :
    addDPack {} eA = Except.error JsError.typeError ∧
      updateDPack {} kA eA = Except.error JsError.typeError ∧
      removeDPack {} kA = Except.error JsError.typeError :=
  mutations_typeError {} eA kA eA rfl

theorem serveFile_head (csp : String) (pr : Nat → RangeResult)
    (st : StreamBehavior) (e : FsStat) :
    (serveFile csp pr st Method.HEAD e).body = Body.empty ∨
      (serveFile csp pr st Method.HEAD e).status = 500 := by
  unfold serveFile
  cases st with
  | hasData m => simp
  | endsEmpty => simp
  | failsBeforeData => simp [respondError]

/-- Claim C2, amended: a HEAD request receives an empty body in every
successful resolution branch (303 canonical redirect, directory listing,
resolved or fallback file with identified data, empty file); in the error
branches, however, `respondError` writes the textual status line as a body
regardless of the method, so a HEAD resolution that ends in `404` (not
found) or `500` (read failure before data) carries that text as its body at
the resolver level — only the HTTP server layer suppresses bodies of HEAD
responses on the wire. The `405` branch is unreachable for HEAD. -/
theorem head_body_empty (fs : String → Option FsStat) (man : Option Manifest)
    (parsedRange : Nat → RangeResult) (stream : StreamBehavior) (reqPath : String) :
    (createHttpMirror fs man parsedRange stream Method.HEAD reqPath).body = Body.empty ∨
      (createHttpMirror fs man parsedRange stream Method.HEAD reqPath).status = 404 ∨
      (createHttpMirror fs man parsedRange stream Method.HEAD reqPath).status = 500 := by
  show (handleRequest fs man parsedRange stream Method.HEAD reqPath).body = Body.empty ∨
    (handleRequest fs man parsedRange stream Method.HEAD reqPath).status = 404 ∨
    (handleRequest fs man parsedRange stream Method.HEAD reqPath).status = 500
  unfold handleRequest
  split
  · exact Or.inl rfl
  · split
    · next e p heq =>
      split
      · exact Or.inl (by simp [dirResponse])
      · rcases serveFile_head (cspOf man) parsedRange stream e with h | h
        · exact Or.inl h
        · exact Or.inr (Or.inr h)
    · split
      · next e p heq =>
        rcases serveFile_head (cspOf man) parsedRange stream e with h | h
        · exact Or.inl h
        · exact Or.inr (Or.inr h)
      · exact Or.inr (Or.inl rfl)

/-- Claim C2, counterexample: a HEAD request for a path that resolves
nowhere (no manifest, no fallback) is answered by `respondError` with the
literal text `404 File Not Found` as its body — not an empty body. -/
theorem head_404_body :
    createHttpMirror (fun _ => none) none (fun _ => RangeResult.noRange)
        StreamBehavior.endsEmpty Method.HEAD "/x" =
      { status := 404, headers := [], body := Body.text "404 File Not Found" } ∧
      Body.text "404 File Not Found" ≠ Body.empty := by
  decide

/-- Claim C8: for a GET request whose path resolves directly to a file entry
and whose `Range` header parses as a byte range, only the first range unit
is honored — whatever further units were supplied — and the response is
`206` with `Content-Range: bytes <start>-<end>/<size>` and `Content-Length`
equal to `end - start + 1`. Instantiated at a 20-byte file and the parsed
form of `Range: bytes=0-9`, this is the claimed `206` /
`Content-Range: bytes 0-9/20` / `Content-Length: 10` response (see the
witness). -/
theorem range_request (fs : String → Option FsStat) (reqPath : String)
    (e : FsStat) (s en : Nat) (rest : List (Nat × Nat))
    (parsedRange : Nat → RangeResult) (mt : String)
    (hslash : endsWithSlash reqPath = false)
    (hfs : fs reqPath = some e) (hdir : e.isDir = false)
    (hr : parsedRange e.size = RangeResult.bytes (s, en) rest) :
    createHttpMirror fs none parsedRange (StreamBehavior.hasData mt) Method.GET reqPath =
      { status := 206,
        headers := [("Accept-Ranges", "bytes"),
          ("Content-Range",
            "bytes " ++ Nat.repr s ++ "-" ++ Nat.repr en ++ "/" ++ Nat.repr e.size),
          ("Content-Length", Nat.repr (en - s + 1)),
          ("Content-Type", mt), ("Content-Security-Policy", ""),
          ("Access-Control-Allow-Origin", "*"),
          ("Cache-Control", "public, max-age: 60")],
        body := Body.fileStream } := by
  have htry : tryStat fs none reqPath = some (e, reqPath) := by
    unfold tryStat lookupPath
    simp [hfs]
  show createHttpMirror fs none parsedRange (StreamBehavior.hasData mt) Method.GET reqPath = _
  unfold createHttpMirror handleRequest
  rw [show redirect303 fs none reqPath = false from by
    unfold redirect303
    rw [hslash, htry]
    simp [hdir]]
  rw [show resolveCandidate fs none (endsWithSlash reqPath) reqPath = some (e, reqPath) from by
    unfold resolveCandidate
    rw [hslash, htry]
    rfl]
  simp only [Bool.false_eq_true, if_false, hdir]
  unfold serveFile
  rw [hr]
  simp [cspOf]

/-- Witness for `range_request`: a 20-byte file requested with the parsed
form of the header `Range: bytes=0-9` (the external range-parser returns the
single unit `(0, 9)` for that header against size 20). -/
theorem range_request_witness :
    createHttpMirror
        (fun p => if p = "/file.bin" then some { isDir := false, size := 20 } else none)
        none (fun _ => RangeResult.bytes (0, 9) []) (StreamBehavior.hasData "text/plain")
        Method.GET "/file.bin" =
      { status := 206,
        headers := [("Accept-Ranges", "bytes"), ("Content-Range", "bytes 0-9/20"),
          ("Content-Length", "10"), ("Content-Type", "text/plain"),
          ("Content-Security-Policy", ""), ("Access-Control-Allow-Origin", "*"),
          ("Cache-Control", "public, max-age: 60")],
        body := Body.fileStream } :=
  range_request _ "/file.bin" { isDir := false, size := 20 } 0 9 []
    (fun _ => RangeResult.bytes (0, 9) []) "text/plain"
    (by decide) (by simp) rfl rfl

/-- Claim C9, amended: for the empty canonical document the computed
directory is the home directory joined with `.forever` and the ports default
to 80/443, as claimed; but the hostnames list equals `[undefined]` only when
the process runs in a debug/staging/test environment — otherwise the missing
global domain falls back to `os.hostname()` and the list is `[hostname]`.
The side condition only says the default directory does not begin with a
tilde, so `untildify` leaves it alone. -/
theorem empty_config_defaults (env : Env)
    (h : (DEFAULT_CONFIG_DIRECTORY env).toList.head? ≠ some '~') :
    ForeverConfig.directory env {} = DEFAULT_CONFIG_DIRECTORY env ∧
      ForeverConfig.ports {} = { http := 80, https := 443 } ∧
      ForeverConfig.hostnames env {} =
        [if env.isDebug then none else some env.osHostname] := by
  refine ⟨?_, rfl, ?_⟩
  · show untildify env (DEFAULT_CONFIG_DIRECTORY env) = DEFAULT_CONFIG_DIRECTORY env
    unfold untildify
    split
    · next heq =>
      rw [heq] at h
      exact absurd rfl h
    · next rest heq =>
      rw [heq] at h
      exact absurd rfl h
    · rfl
  · cases hd : env.isDebug <;>
      simp [ForeverConfig.hostnames, ForeverConfig.domain, hd]

/-- Witness for `empty_config_defaults` in a test environment with home
directory `/home/u`: directory `/home/u/.forever`, ports 80/443, hostnames
`[undefined]`. -/
theorem empty_config_defaults_witness :
    ForeverConfig.directory { isDebug := true, osHostname := "h", homedir := "/home/u" } {} =
        DEFAULT_CONFIG_DIRECTORY { isDebug := true, osHostname := "h", homedir := "/home/u" } ∧
      ForeverConfig.ports {} = { http := 80, https := 443 } ∧
      ForeverConfig.hostnames { isDebug := true, osHostname := "h", homedir := "/home/u" } {} =
        [if ({ isDebug := true, osHostname := "h", homedir := "/home/u" } : Env).isDebug
          then none else some "h"] :=
  empty_config_defaults { isDebug := true, osHostname := "h", homedir := "/home/u" } (by decide)

/-- Claim C9, counterexample: outside a debug/staging/test environment the
empty document's hostnames list is `[os.hostname()]`, not `[undefined]`,
because the `domain` getter falls back to the machine hostname. -/
theorem empty_config_hostnames_counterexample :
    ForeverConfig.hostnames { isDebug := false, osHostname := "myhost", homedir := "/home/u" } {} =
        [some "myhost"] ∧
      some "myhost" ≠ (none : Option String) := by
  decide

theorem normalizeRedirects_from (isD isO : String → Bool)
    {rs rs' : List RedirectEntry}
    (h : normalizeRedirects isD isO rs = Except.ok rs') :
    rs'.map RedirectEntry.from_ = rs.map RedirectEntry.from_ := by
  induction rs generalizing rs' with
  | nil =>
    unfold normalizeRedirects at h
    injection h with h
    subst h
    rfl
  | cons r rest ih =>
    unfold normalizeRedirects at h
    split at h
    · split at h
      · exact absurd h (by simp)
      · next rest' hrest =>
        injection h with h
        subst h
        simp [ih hrest]
    · exact absurd h (by simp)

theorem map_congr_from {β : Type} (f : String → β) {l l' : List RedirectEntry}
    (h : l.map RedirectEntry.from_ = l'.map RedirectEntry.from_) :
    l.map (fun r => f r.from_) = l'.map (fun r => f r.from_) := by
  calc l.map (fun r => f r.from_)
      = (l.map RedirectEntry.from_).map f := by rw [List.map_map]; rfl
    _ = (l'.map RedirectEntry.from_).map f := by rw [h]
    _ = l'.map (fun r => f r.from_) := by rw [List.map_map]; rfl

theorem deriveDPackVhosts_domain_congr (env : Env) {c₁ c₂ : Canonical}
    (h : c₁.domain = c₂.domain) (ds : List DPackEntry) :
    deriveDPackVhosts env c₁ ds = deriveDPackVhosts env c₂ ds := by
  induction ds with
  | nil => rfl
  | cons e rest ih =>
    have hh : ForeverDPackConfig.hostnames env c₁ e =
        ForeverDPackConfig.hostnames env c₂ e := by
      unfold ForeverDPackConfig.hostnames ForeverConfig.domain
      rw [h]
    unfold deriveDPackVhosts
    rw [hh, ih]

/-- Claim C7: serializing a canonical document and parsing it back — which
on the typed document amounts to running `validate` with its normalization,
since the external yaml dump/load pair is the identity on well-formed data —
yields a document whose derived vhosts (identifiers, vhost types, hostname
lists, content keys) are exactly those derived from the original document:
the only normalization, stripping a redirect target's trailing slash, does
not feed into any derived attribute. -/
theorem roundTrip_preserves_derived (isD isO : String → Bool) (env : Env)
    (c c' : Canonical) (h : roundTrip isD isO c = Except.ok c') :
    derivedVhosts env c' = derivedVhosts env c := by
  unfold roundTrip validateNormalize at h
  split at h
  · exact absurd h (by simp)
  · split at h
    · exact absurd h (by simp)
    · split at h
      · next rs hrs =>
        split at h
        · exact absurd h (by simp)
        · next rs' hnorm =>
          injection h with h
          subst h
          unfold derivedVhosts
          rw [deriveDPackVhosts_domain_congr env
            (show ({ c with redirects := some rs' } : Canonical).domain = c.domain from rfl)
            ((({ c with redirects := some rs' } : Canonical).dpacks).getD [])]
          show (match deriveDPackVhosts env c (c.dpacks.getD []) with
            | Except.error err => Except.error err
            | Except.ok ds => Except.ok (ds ++ _ ++ ((some rs').getD []).map _)) = _
          cases hD : deriveDPackVhosts env c (c.dpacks.getD []) with
          | error err => rfl
          | ok ds =>
            rw [hrs]
            show Except.ok (ds ++ _ ++ rs'.map _) = Except.ok (ds ++ _ ++ rs.map _)
            have hmap :
                rs'.map (fun r =>
                  ({ id := ForeverRedirectConfig.id r, vhostType := "redirect",
                     hostnames := ForeverRedirectConfig.hostnames r,
                     contentKey := none } : DerivedVhost)) =
                rs.map (fun r =>
                  ({ id := ForeverRedirectConfig.id r, vhostType := "redirect",
                     hostnames := ForeverRedirectConfig.hostnames r,
                     contentKey := none } : DerivedVhost)) :=
              map_congr_from
                (fun x => ({ id := "redirect-" ++ x, vhostType := "redirect",
                             hostnames := [x], contentKey := none } : DerivedVhost))
                (normalizeRedirects_from isD isO hnorm)
            rw [hmap]
      · injection h with h
        subst h
        rfl

/-- A test environment used by the concrete scenarios. -/
def envT : Env := { isDebug := true, osHostname := "h", homedir := "/home/u" }

/-- A concrete document exercising all three site collections, with a
trailing slash on the redirect target. -/
def cR : Canonical :=
  { domain := some "foo.bar",
    dpacks := some [{ url := "dweb://" ++ kA ++ "/", name := "mysite",
                      otherDomains := some ["d.com"] }],
    proxies := some [{ from_ := "p.com", to_ := "http://y" }],
    redirects := some [{ from_ := "a.com", to_ := "http://x/" }] }

/-- The document `cR` after the round trip: the redirect target lost its
trailing slash. -/
def cR' : Canonical :=
  { cR with redirects := some [{ from_ := "a.com", to_ := "http://x" }] }

/-- Witness for `roundTrip_preserves_derived` at `cR`, whose round trip
strips the redirect target's slash yet derives the same vhosts. -/
theorem roundTrip_preserves_derived_witness :
    derivedVhosts envT cR' = derivedVhosts envT cR :=
  roundTrip_preserves_derived (fun _ => true) (fun _ => true) envT cR cR' (by decide)
